import Mathlib

/-!
# Gyarados WEB Browser — Profile & Persistent State Store: verification

Shallow embedding of the persistence / profile subsystem of the two source
variants `Demo3v4.py` and `Demo2i3.py`, together with proofs about the
behaviour claimed in the design specification.

Modelling boundaries (external libraries, modelled from their documented
contracts; everything else is translated from the repository source):

* the Python `json` module: a serialized blob is represented by its JSON
  value tree; `json.dumps` fails (raises `TypeError`) exactly on values that
  are not JSON serializable (here: `QSize` objects), and `json.loads` of a
  blob produced by `json.dumps` is the identity on the tree;
* `cryptography.fernet` and PBKDF2: the derived key is modelled symbolically
  by the `(password, salt)` pair (PBKDF2-HMAC-SHA256 at 100,000 iterations is
  deterministic; the model idealizes it as collision-free), and a Fernet
  token records the key and plaintext it was built from; decryption with any
  other key fails with `InvalidToken`, matching authenticated encryption;
* `QTabWidget`: a list of tabs plus a current index; per the Qt
  documentation, `setCurrentIndex` with an out-of-range index does nothing.
-/

/-- A Python value as it occurs in the persistence layer: JSON-style data
plus the PyQt `QSize` object that the `Config` dataclass stores in its
`WINDOW_SIZE` field (and which `json.dumps` cannot serialize). Floats are
carried as exact rationals; the code never computes with them. -/
inductive PyVal where
  | null : PyVal
  | bool : Bool → PyVal
  | int : Int → PyVal
  | str : String → PyVal
  | float : Rat → PyVal
  | list : List PyVal → PyVal
  | dict : List (String × PyVal) → PyVal
  | qsize : Int → Int → PyVal

mutual

/-- Returns `true` iff `json.dumps` accepts the value (no `QSize` anywhere inside). -/
def PyVal.jsonable : PyVal → Bool
  | .null => true
  | .bool _ => true
  | .int _ => true
  | .str _ => true
  | .float _ => true
  | .list xs => jsonableList xs
  | .dict kvs => jsonableKVs kvs
  | .qsize _ _ => false

def jsonableList : List PyVal → Bool
  | [] => true
  | v :: t => v.jsonable && jsonableList t

def jsonableKVs : List (String × PyVal) → Bool
  | [] => true
  | kv :: t => kv.2.jsonable && jsonableKVs t

end

/-- Model of `json.dumps`: the serialized blob is represented by its JSON
tree; serialization fails (Python raises `TypeError`) on non-JSON values
such as `QSize`. `json.loads` of a dumped blob recovers the same tree. -/
def json_dumps (v : PyVal) : Option PyVal :=
  if v.jsonable then some v else none

/-- Python truthiness, as used by `if self.PROFILE_ENCRYPTED:` and
`history_data if history_data else ...`. -/
def py_truthy : PyVal → Bool
  | .null => false
  | .bool b => b
  | .int n => n != 0
  | .str s => s != ""
  | .float q => q != 0
  | .list xs => !xs.isEmpty
  | .dict kvs => !kvs.isEmpty
  | .qsize _ _ => true

/-- Model of `setattr(obj, k, v)` on a dataclass instance, and equally `d[k] = v` on a
`dict`, viewed as an association list in attribute/insertion order: the first
binding of `k` is replaced in place, a fresh `k` is appended at the end. -/
def py_setattr (c : List (String × PyVal)) (k : String) (v : PyVal) :
    List (String × PyVal) :=
  match c with
  | [] => [(k, v)]
  | (k', v') :: t => if k' = k then (k, v) :: t else (k', v') :: py_setattr t k v

/-- Model of `getattr(obj, k)` / `d[k]`: the first binding of `k`, if any. -/
def py_getattr (c : List (String × PyVal)) (k : String) : Option PyVal :=
  match c with
  | [] => none
  | (k', v') :: t => if k' = k then some v' else py_getattr t k

/-- Model of `for k, v in config_data.items(): setattr(config, k, v)` — the attribute
update loop used by `load_encrypted_profile`. -/
def py_setattrs (c : List (String × PyVal)) (kvs : List (String × PyVal)) :
    List (String × PyVal) :=
  kvs.foldl (fun acc kv => py_setattr acc kv.1 kv.2) c

/-- Symbolic model of the key-derivation step
`base64.urlsafe_b64encode(PBKDF2HMAC(SHA256, length=32, salt, 100000).derive(password.encode()))`:
PBKDF2 is deterministic in `(password, salt)`, and the model idealizes the
derivation as collision-free, so the key is represented by the pair itself. -/
structure FernetKey where
  password : String
  salt : List Nat
deriving DecidableEq

def derive_key (password : String) (salt : List Nat) : FernetKey :=
  ⟨password, salt⟩

/-- Symbolic model of a Fernet token (version ‖ timestamp ‖ IV ‖ AES-CBC
ciphertext ‖ HMAC tag, base64url): authenticated encryption binds the token
to the key and plaintext it was produced from. -/
structure FernetToken where
  key : FernetKey
  plaintext : PyVal

/-- Model of `Fernet(key).encrypt(blob)`. -/
def fernet_encrypt (k : FernetKey) (blob : PyVal) : FernetToken :=
  ⟨k, blob⟩

/-- Model of `Fernet(key).decrypt(token)`: the HMAC check fails closed with
`InvalidToken` (`none`) under any key other than the encrypting one. -/
def fernet_decrypt (k : FernetKey) (tok : FernetToken) : Option PyVal :=
  if tok.key = k then some tok.plaintext else none

/-- The bytes of the literal marker `b"ENCRYPTED:"` (10 bytes). -/
def ENCRYPTED_MARKER : List Nat :=
  [69, 78, 67, 82, 89, 80, 84, 69, 68, 58]

/-- The on-disk state of one profile directory that the encrypted-profile
operations touch: `profile.meta` and `config.enc` (`none` = file absent). -/
structure ProfileDir where
  meta : Option (List Nat)
  configEnc : Option FernetToken

/-- A profile directory with neither file present. -/
def ProfileDir.empty : ProfileDir :=
  ⟨none, none⟩

namespace Demo3v4

/-- The field/value pairs of a fresh `Config()` dataclass instance in
`Demo3v4.py`, in field order. `WINDOW_SIZE` holds a `QSize` object
(`DEFAULT_WINDOW_SIZE = QSize(1280, 720)`), which is not JSON-serializable. -/
def default_config : List (String × PyVal) :=
  [ ("HOME_PAGE", .str "https://duckduckgo.com"),
    ("SEARCH_ENGINES", .dict
      [ ("DuckDuckGo", .dict [("url", .str "https://duckduckgo.com/?q=\x7b\x7d&kl=\x7blang\x7d"), ("lang_param", .bool true)]),
        ("Google", .dict [("url", .str "https://www.google.com/search?q=\x7b\x7d&hl=\x7blang\x7d"), ("lang_param", .bool true)]),
        ("Bing", .dict [("url", .str "https://www.bing.com/search?q=\x7b\x7d&setlang=\x7blang\x7d"), ("lang_param", .bool true)]),
        ("Yandex", .dict [("url", .str "https://yandex.com/search/?text=\x7b\x7d&lang=\x7blang\x7d"), ("lang_param", .bool true)]),
        ("Baidu", .dict [("url", .str "https://www.baidu.com/s?wd=\x7b\x7d"), ("lang_param", .bool false)]),
        ("Naver", .dict [("url", .str "https://search.naver.com/search.naver?query=\x7b\x7d"), ("lang_param", .bool false)]),
        ("Ecosia", .dict [("url", .str "https://www.ecosia.org/search?q=\x7b\x7d"), ("lang_param", .bool false)]),
        ("Brave", .dict [("url", .str "https://search.brave.com/search?q=\x7b\x7d"), ("lang_param", .bool false)]),
        ("Firefox", .dict [("url", .str "https://www.mozilla.org/en-US/firefox/new/?q=\x7b\x7d"), ("lang_param", .bool false)]),
        ("Yahoo", .dict [("url", .str "https://search.yahoo.com/search?p=\x7b\x7d"), ("lang_param", .bool false)]) ]),
    ("DEFAULT_SEARCH_ENGINE", .str "DuckDuckGo"),
    ("SUPPORTED_LANGUAGES", .dict
      [ ("en", .str "English"), ("es", .str "Español"), ("fr", .str "Français"), ("de", .str "Deutsch"),
        ("it", .str "Italiano"), ("pt", .str "Português"), ("ru", .str "Русский"), ("zh", .str "中文"),
        ("ja", .str "日本語"), ("ko", .str "한국어"), ("ar", .str "العربية"), ("hi", .str "हिन्दी"),
        ("tr", .str "Türkçe"), ("fa", .str "فارسی"), ("ur", .str "اردو"), ("vi", .str "Tiếng Việt"),
        ("th", .str "ไทย"), ("nl", .str "Nederlands"), ("pl", .str "Polski"), ("uk", .str "Українська"),
        ("el", .str "Ελληνικά"), ("he", .str "עברית"), ("sv", .str "Svenska"), ("fi", .str "Suomi"),
        ("da", .str "Dansk"), ("no", .str "Norsk"), ("hu", .str "Magyar"), ("cs", .str "Čeština"),
        ("ro", .str "Română"), ("id", .str "Bahasa Indonesia"), ("ms", .str "Bahasa Melayu"),
        ("bn", .str "বাংলা"), ("ta", .str "தமிழ்"), ("te", .str "తెలుగు"), ("mr", .str "मराठी"),
        ("gu", .str "ગુજરાતી"), ("kn", .str "ಕನ್ನಡ"), ("ml", .str "മലയാളം"), ("pa", .str "ਪੰਜਾਬੀ") ]),
    ("CURRENT_LANGUAGE", .str "en"),
    ("USER_AGENT", .str "Mozilla/5.0 (Windows NT 10.0; Win64; x64) AppleWebKit/537.36 (KHTML, like Gecko) Chrome/91.0.4472.124 Safari/537.36"),
    ("WINDOW_SIZE", .qsize 1280 720),
    ("PRIVATE_MODE", .bool false),
    ("ADBLOCK_ENABLED", .bool true),
    ("ADBLOCK_LISTS", .list
      [ .str "https://easylist.to/easylist/easylist.txt",
        .str "https://easylist.to/easylist/easyprivacy.txt",
        .str "https://pgl.yoyo.org/adservers/serverlist.php?hostformat=hosts&showintro=0&mimetype=plaintext" ]),
    ("COOKIES_ENABLED", .bool true),
    ("JAVASCRIPT_ENABLED", .bool true),
    ("WEBGL_ENABLED", .bool false),
    ("SAVE_SESSION", .bool true),
    ("DARK_THEME", .bool false),
    ("BOOKMARKS", .list []),
    ("CURRENT_PROFILE", .str "default"),
    ("PROFILES", .list [.str "default"]),
    ("PROFILE_ENCRYPTED", .bool false),
    ("AUTO_SWITCH_PROFILES", .dict []),
    ("OPENAI_API_KEY", .null),
    ("BACKGROUND_IMAGE", .null),
    ("BACKGROUND_OPACITY", .float 0.5),
    ("CUSTOM_CSS", .str ""),
    ("TRANSLATE_TARGET_LANG", .str "en"),
    ("PINNED_TABS", .list []),
    ("APPS", .list
      [ .dict [("name", .str "Gmail"), ("url", .str "https://mail.google.com"), ("icon", .str "mail")],
        .dict [("name", .str "YouTube"), ("url", .str "https://youtube.com"), ("icon", .str "video")],
        .dict [("name", .str "GitHub"), ("url", .str "https://github.com"), ("icon", .str "code")] ]) ]

/-- Model of `Config.create_encrypted_profile(profile_name, password, config_data)`
from `Demo3v4.py`. The random `os.urandom(16)` salt is a parameter. On the
default path (`config_data is None`) the stored dict is the fresh dataclass
field dict with `CURRENT_PROFILE` overwritten. `none` models the uncaught
`TypeError` from `json.dumps` — it is raised before either file is opened,
so the profile directory is left untouched. -/
def create_encrypted_profile (profile_name password : String) (salt : List Nat)
    (config_data : Option (List (String × PyVal))) : Option ProfileDir :=
  let key := derive_key password salt
  let data :=
    match config_data with
    | some cd => cd
    | none => py_setattr default_config "CURRENT_PROFILE" (.str profile_name)
  match json_dumps (.dict data) with
  | none => none
  | some blob =>
    some { meta := some (ENCRYPTED_MARKER ++ salt),
           configEnc := some (fernet_encrypt key blob) }

/-- Outcome of `Config.load_encrypted_profile`: a parsed config, the
`except InvalidToken` branch (reported as "Invalid password"), or the generic
`except Exception` branch (generic profile error). -/
inductive LoadResult where
  | ok (config : List (String × PyVal))
  | authError
  | profileError

/-- Model of `Config.load_encrypted_profile(profile_name, password)` from
`Demo3v4.py`: read `profile.meta`, check the `b"ENCRYPTED:"` marker, take
`salt = data[10:]`, derive the key, decrypt `config.enc`, parse the JSON and
apply the pairs over a fresh `Config()`. `InvalidToken` is caught separately
from the generic exception handler. -/
def load_encrypted_profile (password : String) (d : ProfileDir) : LoadResult :=
  match d.meta with
  | none => .profileError
  | some data =>
    if data.take 10 = ENCRYPTED_MARKER then
      let salt := data.drop 10
      let key := derive_key password salt
      match d.configEnc with
      | none => .profileError
      | some tok =>
        match fernet_decrypt key tok with
        | none => .authError
        | some blob =>
          match blob with
          | .dict kvs => .ok (py_setattrs default_config kvs)
          | _ => .profileError
    else .profileError

/-- The per-profile persistent state touched by `Config.save` in
`Demo3v4.py`: the `QSettings` store keyed `"Gyarados Browser/Browser/<profile>"`
and the three collection files written through `save_bookmarks`,
`save_pinned_tabs` and `save_apps` (`none` = file absent). -/
structure ProfileStore where
  dir : ProfileDir
  settings : List (String × PyVal)
  bookmarksFile : Option PyVal
  pinnedFile : Option PyVal
  appsFile : Option PyVal

/-- The `isinstance(value, QSize)` conversion in `Config.save`:
`value = [value.width(), value.height()]`. -/
def qsize_to_list : PyVal → PyVal
  | .qsize w h => .list [.int w, .int h]
  | v => v

/-- Model of `Config.save(self)` from `Demo3v4.py`: a no-op when
`self.PROFILE_ENCRYPTED` is truthy, otherwise every dataclass field is
written to `QSettings` (with `QSize` converted to `[w, h]`) and the
bookmark / pinned-tab / app collections are written to their files. -/
def config_save (c : List (String × PyVal)) (s : ProfileStore) : ProfileStore :=
  if py_truthy ((py_getattr c "PROFILE_ENCRYPTED").getD .null) then s
  else
    { s with
      settings := c.foldl (fun st kv => py_setattr st kv.1 (qsize_to_list kv.2)) s.settings,
      bookmarksFile := some ((py_getattr c "BOOKMARKS").getD .null),
      pinnedFile := some ((py_getattr c "PINNED_TABS").getD .null),
      appsFile := some ((py_getattr c "APPS").getD .null) }

end Demo3v4

namespace Demo2i3

/-- The field/value pairs of a fresh `Config()` dataclass instance in
`Demo2i3.py`, in field order (`DEFAULT_WINDOW_SIZE = QSize(1280, 720)`). -/
def default_config : List (String × PyVal) :=
  [ ("HOME_PAGE", .str "https://duckduckgo.com"),
    ("SEARCH_ENGINES", .dict
      [ ("DuckDuckGo", .dict [("url", .str "https://duckduckgo.com/?q=\x7b\x7d&kl=\x7blang\x7d"), ("lang_param", .bool true)]),
        ("Google", .dict [("url", .str "https://www.google.com/search?q=\x7b\x7d&hl=\x7blang\x7d"), ("lang_param", .bool true)]),
        ("Bing", .dict [("url", .str "https://www.bing.com/search?q=\x7b\x7d&setlang=\x7blang\x7d"), ("lang_param", .bool true)]),
        ("Yandex", .dict [("url", .str "https://yandex.com/search/?text=\x7b\x7d&lang=\x7blang\x7d"), ("lang_param", .bool true)]) ]),
    ("DEFAULT_SEARCH_ENGINE", .str "DuckDuckGo"),
    ("SUPPORTED_LANGUAGES", .dict
      [ ("en", .str "English"), ("tr", .str "Türkçe"), ("es", .str "Español"),
        ("fr", .str "Français"), ("de", .str "Deutsch"), ("ja", .str "日本語") ]),
    ("CURRENT_LANGUAGE", .str "en"),
    ("USER_AGENT", .str "Mozilla/5.0 (Windows NT 10.0; Win64; x64) AppleWebKit/537.36 (KHTML, like Gecko) Chrome/91.0.4472.124 Safari/537.36"),
    ("WINDOW_SIZE", .qsize 1280 720),
    ("PRIVATE_MODE", .bool false),
    ("ADBLOCK_ENABLED", .bool true),
    ("ADBLOCK_LISTS", .list
      [ .str "https://easylist.to/easylist/easylist.txt",
        .str "https://easylist.to/easylist/easyprivacy.txt" ]),
    ("COOKIES_ENABLED", .bool true),
    ("JAVASCRIPT_ENABLED", .bool true),
    ("WEBGL_ENABLED", .bool false),
    ("SAVE_SESSION", .bool true),
    ("DARK_THEME", .bool false),
    ("BOOKMARKS", .list []),
    ("CURRENT_PROFILE", .str "default"),
    ("PROFILES", .list [.str "default"]),
    ("PROFILE_ENCRYPTED", .bool false),
    ("AUTO_SWITCH_PROFILES", .dict []),
    ("OPENAI_API_KEY", .null) ]

/-- Model of `Config.create_encrypted_profile` from `Demo2i3.py` — identical logic to
the `Demo3v4.py` variant, over the dataclass defaults of `Demo2i3.py`. -/
def create_encrypted_profile (profile_name password : String) (salt : List Nat)
    (config_data : Option (List (String × PyVal))) : Option ProfileDir :=
  let key := derive_key password salt
  let data :=
    match config_data with
    | some cd => cd
    | none => py_setattr default_config "CURRENT_PROFILE" (.str profile_name)
  match json_dumps (.dict data) with
  | none => none
  | some blob =>
    some { meta := some (ENCRYPTED_MARKER ++ salt),
           configEnc := some (fernet_encrypt key blob) }

/-- Model of `Config.load_encrypted_profile(profile_name, password)` from
`Demo2i3.py`. Unlike the `Demo3v4.py` variant there is no dedicated
`except InvalidToken` branch: every exception — a wrong password included —
falls into the single generic `except Exception` handler, which reports the
generic profile error and returns `None`. -/
def load_encrypted_profile (password : String) (d : ProfileDir) :
    Demo3v4.LoadResult :=
  match d.meta with
  | none => .profileError
  | some data =>
    if data.take 10 = ENCRYPTED_MARKER then
      let salt := data.drop 10
      let key := derive_key password salt
      match d.configEnc with
      | none => .profileError
      | some tok =>
        match fernet_decrypt key tok with
        | none => .profileError
        | some blob =>
          match blob with
          | .dict kvs => .ok (py_setattrs default_config kvs)
          | _ => .profileError
    else .profileError

end Demo2i3

/-! ## The collection-file write sequence (`save_bookmarks` / `save_history`)

Both variants write a collection with the same three observable file-system
steps, in this order:

1. write the serialized value to `<name>_temp.json`;
2. `if dest.exists(): dest.unlink()`;
3. `temp.rename(dest)`.

`FileWriteState` records the two paths involved; `collection_write_steps`
runs the first `k` steps, modelling a write interrupted after `k` of them. -/

/-- Contents of the destination file and the temporary file of one
collection (`none` = file absent). -/
structure FileWriteState where
  dest : Option PyVal
  temp : Option PyVal

/-- Step 1 of `save_bookmarks`: serialize into `bookmarks_temp.json`. -/
def write_temp_step (v : PyVal) (fs : FileWriteState) : FileWriteState :=
  { fs with temp := some v }

/-- Step 2: `if bookmarks_file.exists(): bookmarks_file.unlink()`. -/
def unlink_dest_step (fs : FileWriteState) : FileWriteState :=
  if fs.dest.isSome then { fs with dest := none } else fs

/-- Step 3: `temp_file.rename(bookmarks_file)`. -/
def rename_step (fs : FileWriteState) : FileWriteState :=
  { dest := fs.temp, temp := none }

/-- The state after the first `k` steps of the write of value `v`
(`k ≥ 3` is the completed write). -/
def collection_write_steps (v : PyVal) (fs : FileWriteState) : Nat → FileWriteState
  | 0 => fs
  | 1 => write_temp_step v fs
  | 2 => unlink_dest_step (write_temp_step v fs)
  | _ + 3 => rename_step (unlink_dest_step (write_temp_step v fs))

/-- The completed `save_bookmarks` / `save_history` write. -/
def collection_write (v : PyVal) (fs : FileWriteState) : FileWriteState :=
  collection_write_steps v fs 3

/-! ## History (`Demo3v4.py`) -/

/-- One history entry, `{"time": ..., "url": ..., "title": ...}` — the shape
`add_to_history` creates and reads. -/
structure HistEntry where
  time : String
  url : String
  title : String
deriving DecidableEq, Repr

/-- Model of `Config.load_history`: the parsed file, or `[]` when the file is absent
(or unreadable). -/
def load_history (file : Option (List HistEntry)) : List HistEntry :=
  file.getD []

/-- Model of `Config.save_history(profile_name, history_data=None)` from `Demo3v4.py`,
as a function from the stored file to the new stored file. The source line
`history = history_data if history_data else self.load_history(profile_name)`
tests Python truthiness, so an *empty* `history_data` list is treated like
`None`: the current file is reloaded and rewritten. -/
def save_history (file : Option (List HistEntry))
    (history_data : Option (List HistEntry)) : Option (List HistEntry) :=
  some (match history_data with
        | some h => if h.isEmpty then load_history file else h
        | none => load_history file)

/-- Model of `Config.clear_history`: `self.save_history(profile_name, [])`. -/
def clear_history (file : Option (List HistEntry)) : Option (List HistEntry) :=
  save_history file (some [])

/-- The in-place update of the first entry whose `url` matches, performed by
`add_to_history` through `next((h for h in history if h["url"] == url), None)`
followed by mutation of the `time` and `title` fields of that entry. -/
def update_first_entry (now url title : String) : List HistEntry → List HistEntry
  | [] => []
  | h :: t =>
    if h.url = url then { h with time := now, title := title } :: t
    else h :: update_first_entry now url title t

/-- Model of `MainWindow.add_to_history(url, title)` from `Demo3v4.py`, acting on the
loaded history list: update the existing entry for `url` in place, or insert
a new entry at index 0; then keep only the first 100 items. -/
def add_to_history (now url title : String) (history : List HistEntry) :
    List HistEntry :=
  let updated :=
    if history.any (fun h => h.url = url) then update_first_entry now url title history
    else ⟨now, url, title⟩ :: history
  updated.take 100

/-- The full visit-recording path: load the stored file, run
`add_to_history`, store the result via `save_history`. -/
def record_visit (now url title : String) (file : Option (List HistEntry)) :
    Option (List HistEntry) :=
  save_history file (some (add_to_history now url title (load_history file)))

/-! ## Bookmarks -/

/-- A `Demo3v4.py` bookmark dict `{"title": ..., "url": ..., "date": ...}`. -/
structure Bookmark where
  title : String
  url : String
  date : String
deriving DecidableEq, Repr

/-- Model of `next((i for i, b in enumerate(bookmarks) if b["url"] == url), None)`:
the index of the first bookmark with the given `url`. -/
def find_bookmark_idx (url : String) : List Bookmark → Option Nat
  | [] => none
  | b :: t => if b.url = url then some 0 else (find_bookmark_idx url t).map (· + 1)

/-- Model of `MainWindow.toggle_bookmark(title, url)` from `Demo3v4.py`: pop the first
entry whose `url` matches, or append `{"title": title, "url": url, "date": now}`. -/
def toggle_bookmark (now title url : String) (bs : List Bookmark) : List Bookmark :=
  match find_bookmark_idx url bs with
  | some i => bs.eraseIdx i
  | none => bs ++ [⟨title, url, now⟩]

/-- Model of `MainWindow.toggle_bookmark(title, url)` from `Demo2i3.py`, where a
bookmark is the tuple `(title, url)`: `if bookmark in BOOKMARKS:
BOOKMARKS.remove(bookmark) else: BOOKMARKS.append(bookmark)` — membership and
removal test the whole pair, not the `url` alone. -/
def toggle_bookmark_2i3 (title url : String) (bs : List (String × String)) :
    List (String × String) :=
  if (title, url) ∈ bs then bs.erase (title, url) else bs ++ [(title, url)]

/-! ## Profile deletion (`ProfileDialog.delete_profile`, both variants) -/

/-- Observable outcome of `ProfileDialog.delete_profile`. `skippedDefault`:
the selected profile is `"default"`, so the whole branch (confirmation dialog
included) is skipped and nothing is shown; `notConfirmed`: the user answered
No; `removed`: `shutil.rmtree` succeeded; `fileError`: `rmtree` raised and
`ErrorHandler` showed a file-error dialog. -/
inductive DeleteOutcome where
  | removed
  | skippedDefault
  | notConfirmed
  | fileError
deriving DecidableEq, Repr

/-- Model of `ProfileDialog.delete_profile` (identical in both variants), over the set
of existing profile directory names: `if current and current.text() !=
"default":` guards the deletion; on confirmation, `shutil.rmtree` removes the
directory of the profile (raising, hence `fileError`, if it does not exist). -/
def delete_profile (name : String) (confirmYes : Bool) (profiles : List String) :
    DeleteOutcome × List String :=
  if name ≠ "default" then
    if confirmYes then
      if name ∈ profiles then (.removed, profiles.filter (fun p => p ≠ name))
      else (.fileError, profiles)
    else (.notConfirmed, profiles)
  else (.skippedDefault, profiles)

/-! ## Deletion by indices (`Config.delete_bookmarks` /
`Config.delete_history_items`, `Demo3v4.py`) -/

/-- Descending insertion: the head of the result is the largest element. -/
def insert_desc (a : Int) : List Int → List Int
  | [] => [a]
  | b :: l => if b ≤ a then a :: b :: l else b :: insert_desc a l

/-- Model of `sorted(indices, reverse=True)` (tie order is irrelevant here:
the properties proved below only concern the sorted order and membership). -/
def sort_desc : List Int → List Int
  | [] => []
  | a :: l => insert_desc a (sort_desc l)

/-- One loop iteration: `if 0 <= index < len(items): items.pop(index)`. -/
def pop_index (items : List α) (i : Int) : List α :=
  if 0 ≤ i ∧ i < (items.length : Int) then items.eraseIdx i.toNat else items

/-- The deletion loops of `Config.delete_bookmarks` and
`Config.delete_history_items`: `for index in sorted(indices, reverse=True):
if 0 <= index < len(items): items.pop(index)`. -/
def delete_by_indices (indices : List Int) (items : List α) : List α :=
  (sort_desc indices).foldl pop_index items

/-- Reference description of index deletion: keep the element at original
position `k` iff `k` is not one of the requested indices (`pos` is the
original position of the list head). -/
def keep_not_in (indices : List Int) (pos : Nat) : List α → List α
  | [] => []
  | x :: t =>
    if (pos : Int) ∈ indices then keep_not_in indices (pos + 1) t
    else x :: keep_not_in indices (pos + 1) t

/-! ## Session snapshot (`MainWindow.save_session` / `load_session`,
`Demo3v4.py`) -/

/-- One captured tab: `{"url": ..., "private": ..., "custom_title": ...,
"pinned": ...}`. -/
structure TabData where
  url : String
  private_mode : Bool
  custom_title : Option String
  pinned : Bool
deriving DecidableEq, Repr

/-- The host `QTabWidget`: the ordered tabs and the current index (`-1` when
no tab exists, as in Qt). -/
structure TabWidget where
  tabs : List TabData
  currentIndex : Int
deriving DecidableEq, Repr

/-- An empty tab widget. -/
def TabWidget.empty : TabWidget :=
  ⟨[], -1⟩

/-- Model of `QTabWidget.setCurrentIndex(i)`, modelled from the Qt documentation: an
out-of-range index is ignored and the current index is left unchanged. -/
def setCurrentTabIndex (w : TabWidget) (i : Int) : TabWidget :=
  if 0 ≤ i ∧ i < (w.tabs.length : Int) then { w with currentIndex := i } else w

/-- Model of `MainWindow.new_tab(...)` as far as the tab bar is concerned:
`index = self.tabs.addTab(tab, ...); self.tabs.setCurrentIndex(index)` —
the tab is appended and becomes current. -/
def new_tab (w : TabWidget) (t : TabData) : TabWidget :=
  setCurrentTabIndex { w with tabs := w.tabs ++ [t] } (w.tabs.length : Int)

/-- A stored session blob: the `"tabs"` list plus the optional
`"current_index"` and `"dark_theme"` keys that `load_session` probes with
`in`. -/
structure Session where
  tabs : List TabData
  current_index : Option Int
  dark_theme : Option Bool
deriving DecidableEq, Repr

/-- Model of `MainWindow.save_session` (with `SAVE_SESSION` on): capture the tabs in
widget order together with `tabs.currentIndex()` and the theme flag. -/
def save_session (w : TabWidget) (dark : Bool) : Session :=
  { tabs := w.tabs, current_index := some w.currentIndex, dark_theme := some dark }

/-- Model of `MainWindow.load_session` acting on a tab widget and the `DARK_THEME`
flag: open a tab (via `new_tab`) for each saved tab in saved order, then
`setCurrentIndex(session["current_index"])` if that key is present, then set
the dark theme if saved true. -/
def load_session (s : Session) (w : TabWidget) (dark : Bool) : TabWidget × Bool :=
  let w1 := s.tabs.foldl new_tab w
  let w2 := match s.current_index with
            | some i => setCurrentTabIndex w1 i
            | none => w1
  let dark2 := match s.dark_theme with
               | some b => if b then true else dark
               | none => dark
  (w2, dark2)


/-! ## Helper lemmas -/

theorem py_setattrs_nil (c : List (String × PyVal)) : py_setattrs c [] = c := rfl

theorem py_setattrs_cons (c : List (String × PyVal)) (kv : String × PyVal)
    (t : List (String × PyVal)) :
    py_setattrs c (kv :: t) = py_setattrs (py_setattr c kv.1 kv.2) t := rfl

theorem py_getattr_setattr_self (c : List (String × PyVal)) (k : String) (v : PyVal) :
    py_getattr (py_setattr c k v) k = some v := by
  induction c with
  | nil => simp [py_setattr, py_getattr]
  | cons kv t ih =>
    obtain ⟨k', v'⟩ := kv
    by_cases h : k' = k
    · simp [py_setattr, py_getattr, h]
    · simp [py_setattr, py_getattr, h, ih]

theorem py_getattr_setattr_other (c : List (String × PyVal)) (k k' : String)
    (v' : PyVal) (h : k' ≠ k) :
    py_getattr (py_setattr c k' v') k = py_getattr c k := by
  induction c with
  | nil => simp [py_setattr, py_getattr, h]
  | cons kv t ih =>
    obtain ⟨k₀, v₀⟩ := kv
    by_cases h0 : k₀ = k'
    · subst h0
      simp [py_setattr, py_getattr, h]
    · simp only [py_setattr, if_neg h0]
      by_cases h1 : k₀ = k
      · simp [py_getattr, h1]
      · simp [py_getattr, h1, ih]

theorem py_getattr_setattrs_of_not_mem (d : List (String × PyVal))
    (c : List (String × PyVal)) (k : String) (h : k ∉ d.map Prod.fst) :
    py_getattr (py_setattrs c d) k = py_getattr c k := by
  induction d generalizing c with
  | nil => rfl
  | cons kv t ih =>
    simp only [List.map_cons, List.mem_cons, not_or] at h
    rw [py_setattrs_cons, ih _ h.2, py_getattr_setattr_other _ _ _ _ (Ne.symm h.1)]

theorem py_getattr_setattrs_of_getattr (d : List (String × PyVal))
    (c : List (String × PyVal)) (k : String) (v : PyVal)
    (hnd : (d.map Prod.fst).Nodup) (h : py_getattr d k = some v) :
    py_getattr (py_setattrs c d) k = some v := by
  induction d generalizing c with
  | nil => simp [py_getattr] at h
  | cons kv t ih =>
    obtain ⟨k₁, v₁⟩ := kv
    simp only [List.map_cons, List.nodup_cons] at hnd
    by_cases h1 : k₁ = k
    · subst h1
      simp only [py_getattr, if_pos, Option.some.injEq] at h
      subst h
      rw [py_setattrs_cons, py_getattr_setattrs_of_not_mem _ _ _ hnd.1,
        py_getattr_setattr_self]
    · simp only [py_getattr, if_neg h1] at h
      rw [py_setattrs_cons]
      exact ih _ hnd.2 h

theorem take_append_marker (salt : List Nat) :
    (ENCRYPTED_MARKER ++ salt).take 10 = ENCRYPTED_MARKER := by
  have h : (10 : Nat) = ENCRYPTED_MARKER.length := rfl
  rw [h, List.take_left]

theorem drop_append_marker (salt : List Nat) :
    (ENCRYPTED_MARKER ++ salt).drop 10 = salt := by
  have h : (10 : Nat) = ENCRYPTED_MARKER.length := rfl
  rw [h, List.drop_left]

theorem unlink_dest_step_temp (fs : FileWriteState) :
    (unlink_dest_step fs).temp = fs.temp := by
  unfold unlink_dest_step
  split <;> rfl

theorem setCurrentTabIndex_tabs (w : TabWidget) (i : Int) :
    (setCurrentTabIndex w i).tabs = w.tabs := by
  unfold setCurrentTabIndex
  split <;> rfl

theorem new_tab_tabs (w : TabWidget) (t : TabData) :
    (new_tab w t).tabs = w.tabs ++ [t] := by
  unfold new_tab
  rw [setCurrentTabIndex_tabs]

theorem tabs_foldl_new_tab (l : List TabData) (w : TabWidget) :
    (l.foldl new_tab w).tabs = w.tabs ++ l := by
  induction l generalizing w with
  | nil => simp
  | cons t l ih =>
    rw [List.foldl_cons, ih, new_tab_tabs, List.append_assoc, List.singleton_append]

theorem new_tab_currentIndex (w : TabWidget) (t : TabData) :
    (new_tab w t).currentIndex = (w.tabs.length : Int) := by
  unfold new_tab setCurrentTabIndex
  rw [if_pos]
  constructor
  · exact Int.ofNat_nonneg _
  · simp only [List.length_append, List.length_cons, List.length_nil]
    omega

theorem currentIndex_foldl_new_tab (l : List TabData) (w : TabWidget) (h : l ≠ []) :
    (l.foldl new_tab w).currentIndex = (w.tabs.length : Int) + l.length - 1 := by
  induction l generalizing w with
  | nil => exact absurd rfl h
  | cons t l ih =>
    cases l with
    | nil =>
      rw [List.foldl_cons, List.foldl_nil, new_tab_currentIndex]
      simp
    | cons t2 l2 =>
      rw [List.foldl_cons, ih _ (by simp), new_tab_tabs]
      simp only [List.length_append, List.length_cons, List.length_nil]
      push_cast
      ring

/-! ## C10 — `save_history` with an empty list -/

/-- C10: an empty `history_data` list is falsy in
`history = history_data if history_data else self.load_history(...)`, so
`save_history(profile, [])` reloads the stored history and rewrites it
unchanged; hence `clear_history` leaves the stored entries exactly as they
were, while a non-empty list is persisted as given. -/
theorem c10_save_history_empty_reloads
    (stored h : List HistEntry) (file : Option (List HistEntry)) :
    save_history (some stored) (some []) = some stored ∧
    clear_history (some stored) = some stored ∧
    save_history file (some []) = save_history file none ∧
    (h ≠ [] → save_history file (some h) = some h) := by
  refine ⟨rfl, rfl, rfl, fun hne => ?_⟩
  cases h with
  | nil => exact absurd rfl hne
  | cons a t => rfl

/-- Witness for C10 at concrete inputs. -/
theorem c10_save_history_empty_reloads_witness :
    clear_history (some [⟨"t1", "u1", "a"⟩]) = some [⟨"t1", "u1", "a"⟩] ∧
    save_history (some [⟨"t1", "u1", "a"⟩]) (some [⟨"t2", "u2", "b"⟩])
      = some [⟨"t2", "u2", "b"⟩] :=
  ⟨(c10_save_history_empty_reloads [⟨"t1", "u1", "a"⟩] [⟨"t2", "u2", "b"⟩]
      (some [⟨"t1", "u1", "a"⟩])).2.1,
   (c10_save_history_empty_reloads [⟨"t1", "u1", "a"⟩] [⟨"t2", "u2", "b"⟩]
      (some [⟨"t1", "u1", "a"⟩])).2.2.2 (by simp)⟩

/-! ## C4 — interrupted collection writes -/

/-- C4 counterexample: the write sequence unlinks the destination before the
rename, so a write of a new bookmark list interrupted after two steps (temp
file written, destination unlinked, rename not yet run) leaves the
destination file missing — not holding its previous committed content as the
claim states. -/
theorem c4_interrupted_write_counterexample :
    (collection_write_steps (.list [.str "new"])
        ⟨some (.list [.str "old"]), none⟩ 2).dest = none ∧
    (collection_write_steps (.list [.str "new"])
        ⟨some (.list [.str "old"]), none⟩ 2).dest ≠ some (.list [.str "old"]) := by
  refine ⟨rfl, fun hcontra => ?_⟩
  exact Option.noConfusion hcontra

/-- C4 (amended): if the write is interrupted before the unlink step (after
at most the temp-file write), the destination is unchanged; at every
interruption point the destination holds the old content, the new content,
or is absent — never partially written — but it *is* absent in the window
between unlink and rename; a completed write installs the new content. -/
theorem c4_collection_write_dest_states (v : PyVal) (fs : FileWriteState) (k : Nat) :
    (k ≤ 1 → (collection_write_steps v fs k).dest = fs.dest) ∧
    ((collection_write_steps v fs k).dest = fs.dest ∨
      (collection_write_steps v fs k).dest = none ∨
      (collection_write_steps v fs k).dest = some v) ∧
    (3 ≤ k → (collection_write_steps v fs k).dest = some v) ∧
    (collection_write v fs).dest = some v := by
  have hfull : ∀ n : Nat, (collection_write_steps v fs (n + 3)).dest = some v := by
    intro n
    show (rename_step (unlink_dest_step (write_temp_step v fs))).dest = some v
    unfold rename_step
    rw [unlink_dest_step_temp]
    rfl
  have h2 : (collection_write_steps v fs 2).dest = none := by
    show (unlink_dest_step (write_temp_step v fs)).dest = none
    rcases hfd : fs.dest with _ | x <;>
      simp [unlink_dest_step, write_temp_step, hfd]
  refine ⟨?_, ?_, ?_, hfull 0⟩
  · match k with
    | 0 => exact fun _ => rfl
    | 1 => exact fun _ => rfl
    | 2 => exact fun hk => absurd hk (by omega)
    | n + 3 => exact fun hk => absurd hk (by omega)
  · match k with
    | 0 => exact Or.inl rfl
    | 1 => exact Or.inl rfl
    | 2 => exact Or.inr (Or.inl h2)
    | n + 3 => exact Or.inr (Or.inr (hfull n))
  · match k with
    | 0 => exact fun hk => absurd hk (by omega)
    | 1 => exact fun hk => absurd hk (by omega)
    | 2 => exact fun hk => absurd hk (by omega)
    | n + 3 => exact fun _ => hfull n

/-- Witness for C4 at concrete inputs. -/
theorem c4_collection_write_dest_states_witness :
    (collection_write_steps (.str "v") ⟨some (.str "o"), none⟩ 1).dest = some (.str "o") ∧
    (collection_write_steps (.str "v") ⟨some (.str "o"), none⟩ 3).dest = some (.str "v") :=
  ⟨(c4_collection_write_dest_states (.str "v") ⟨some (.str "o"), none⟩ 1).1 (by omega),
   (c4_collection_write_dest_states (.str "v") ⟨some (.str "o"), none⟩ 3).2.2.1 (by omega)⟩

/-! ## C7 — profile deletion -/

/-- C7 counterexample: deleting the `"default"` profile does not fail with a
policy error — the `if current.text() != "default"` guard silently skips the
whole branch (no dialog, no error outcome); the on-disk state is unchanged
but no error of any kind is surfaced. -/
theorem c7_delete_default_counterexample :
    delete_profile "default" true ["default", "work"]
      = (.skippedDefault, ["default", "work"]) ∧
    DeleteOutcome.skippedDefault ≠ DeleteOutcome.fileError ∧
    DeleteOutcome.skippedDefault ≠ DeleteOutcome.removed := by
  refine ⟨by decide, by decide, by decide⟩

/-- C7 (amended): `delete_profile("default")` is a silent no-op (the branch
is skipped with no error) leaving the profile store intact; for any other
existing profile name, upon user confirmation the profile directory is
removed from the store; without confirmation nothing changes. -/
theorem c7_delete_profile_behavior :
    (∀ (ps : List String) (confirm : Bool),
      delete_profile "default" confirm ps = (.skippedDefault, ps)) ∧
    (∀ (name : String) (ps : List String), name ≠ "default" → name ∈ ps →
      delete_profile name true ps = (.removed, ps.filter (fun p => p ≠ name)) ∧
      name ∉ (delete_profile name true ps).2) ∧
    (∀ (name : String) (ps : List String), name ≠ "default" →
      delete_profile name false ps = (.notConfirmed, ps)) := by
  refine ⟨fun ps confirm => ?_, fun name ps hne hmem => ?_, fun name ps hne => ?_⟩
  · simp [delete_profile]
  · refine ⟨by simp [delete_profile, hne, hmem], ?_⟩
    simp [delete_profile, hne, hmem, List.mem_filter]
  · simp [delete_profile, hne]

/-- Witness for C7 at concrete inputs. -/
theorem c7_delete_profile_behavior_witness :
    delete_profile "work" true ["default", "work"] = (.removed, ["default"]) :=
  ((c7_delete_profile_behavior).2.1 "work" ["default", "work"]
    (by decide) (by decide)).1

/-! ## C9 — session restore -/

/-- C9 counterexample: restoring a stored session whose `current_index` (5)
is out of range for its two tabs leaves the current tab at the *last*
restored tab (index 1) — Qt ignores an out-of-range `setCurrentIndex` — and
does not fall back to index 0 as the claim states. -/
theorem c9_out_of_range_index_counterexample :
    ((load_session ⟨[⟨"a", false, none, false⟩, ⟨"b", false, none, false⟩],
        some 5, some false⟩ TabWidget.empty false).1).currentIndex = 1 ∧
    (1 : Int) ≠ 0 := by
  exact ⟨by decide, by decide⟩

/-- C9 (amended): restoring opens the captured tabs in exactly capture
order; a saved in-range `current_index` becomes the current tab; a saved
out-of-range `current_index` is ignored by `setCurrentIndex`, so the current
tab stays at the last tab opened during restore (index n−1 for n restored
tabs), not at 0. -/
theorem c9_session_restore_order_and_index :
    (∀ (w : TabWidget) (dark dark2 : Bool),
      ((load_session (save_session w dark) TabWidget.empty dark2).1).tabs = w.tabs) ∧
    (∀ (s : Session) (dark : Bool),
      ((load_session s TabWidget.empty dark).1).tabs = s.tabs) ∧
    (∀ (s : Session) (dark : Bool) (i : Int), s.current_index = some i →
      0 ≤ i → i < (s.tabs.length : Int) →
      ((load_session s TabWidget.empty dark).1).currentIndex = i) ∧
    (∀ (s : Session) (dark : Bool) (i : Int), s.current_index = some i →
      ¬ (0 ≤ i ∧ i < (s.tabs.length : Int)) → s.tabs ≠ [] →
      ((load_session s TabWidget.empty dark).1).currentIndex
        = (s.tabs.length : Int) - 1) := by
  have horder : ∀ (s : Session) (dark : Bool),
      ((load_session s TabWidget.empty dark).1).tabs = s.tabs := by
    intro s dark
    simp only [load_session]
    cases hci : s.current_index with
    | none => rw [tabs_foldl_new_tab]; rfl
    | some i => rw [setCurrentTabIndex_tabs, tabs_foldl_new_tab]; rfl
  have hlen : ∀ s : Session,
      ((s.tabs.foldl new_tab TabWidget.empty).tabs.length : Int)
        = (s.tabs.length : Int) := by
    intro s
    rw [tabs_foldl_new_tab]
    rfl
  refine ⟨fun w dark dark2 => horder _ _, horder, ?_, ?_⟩
  · intro s dark i hci h0 hlt
    simp only [load_session, hci]
    unfold setCurrentTabIndex
    rw [if_pos ⟨h0, by rw [hlen]; exact hlt⟩]
  · intro s dark i hci hnot hne
    simp only [load_session, hci]
    unfold setCurrentTabIndex
    rw [if_neg (by rw [hlen]; exact hnot), currentIndex_foldl_new_tab _ _ hne]
    simp [TabWidget.empty]

/-- Witness for C9 at concrete inputs. -/
theorem c9_session_restore_order_and_index_witness :
    ((load_session ⟨[⟨"a", false, none, false⟩], some 0, some false⟩
        TabWidget.empty false).1).tabs = [⟨"a", false, none, false⟩] ∧
    ((load_session ⟨[⟨"a", false, none, false⟩], some 0, some false⟩
        TabWidget.empty false).1).currentIndex = 0 :=
  ⟨(c9_session_restore_order_and_index).2.1
      ⟨[⟨"a", false, none, false⟩], some 0, some false⟩ false,
   (c9_session_restore_order_and_index).2.2.1
      ⟨[⟨"a", false, none, false⟩], some 0, some false⟩ false 0 rfl
      (by decide) (by decide)⟩

/-! ## C1 — encrypted-profile round trip -/

/-- C1 counterexample: the claim quantifies over every `Config` and asserts
in particular that `create_encrypted_profile(name, P)` followed by
`load_encrypted_profile(name, P)` returns the stored `Config`. On the actual
default path (`config_data=None`, the only call site), the stored field dict
contains the `QSize` window size, `json.dumps` raises `TypeError`, nothing is
written, and a subsequent load of the untouched directory fails — so no
stored `Config` is ever returned. -/
theorem c1_create_default_config_counterexample :
    Demo3v4.create_encrypted_profile "p" "pw" (List.replicate 16 0) none = none ∧
    json_dumps (.dict (py_setattr Demo3v4.default_config "CURRENT_PROFILE"
      (.str "p"))) = none ∧
    Demo3v4.load_encrypted_profile "pw" ProfileDir.empty = .profileError := by
  exact ⟨rfl, rfl, rfl⟩

/-- C1 (amended): for every config dict whose values are JSON-serializable
(which excludes the `QSize`-bearing default field dict), the round trip
holds exactly as claimed: the symbolic decrypt-of-encrypt under the same
derived key returns the serialized blob, `create_encrypted_profile` stores
the marker, salt and token, and `load_encrypted_profile` with the same
password returns the stored dict applied over a fresh `Config` — in
particular every stored field comes back with its stored value. -/
theorem c1_encrypted_profile_round_trip
    (name pw : String) (salt : List Nat) (d : List (String × PyVal))
    (hjson : jsonableKVs d = true) :
    fernet_decrypt (derive_key pw salt)
      (fernet_encrypt (derive_key pw salt) (.dict d)) = some (.dict d) ∧
    ∃ dir : ProfileDir,
      Demo3v4.create_encrypted_profile name pw salt (some d) = some dir ∧
      Demo3v4.load_encrypted_profile pw dir
        = .ok (py_setattrs Demo3v4.default_config d) ∧
      ((d.map Prod.fst).Nodup → ∀ (k : String) (v : PyVal),
        py_getattr d k = some v →
          py_getattr (py_setattrs Demo3v4.default_config d) k = some v) := by
  have hdump : json_dumps (.dict d) = some (.dict d) := by
    unfold json_dumps
    rw [if_pos]
    show PyVal.jsonable (.dict d) = true
    rw [PyVal.jsonable]
    exact hjson
  refine ⟨by simp [fernet_decrypt, fernet_encrypt], ?_⟩
  refine ⟨⟨some (ENCRYPTED_MARKER ++ salt),
           some (fernet_encrypt (derive_key pw salt) (.dict d))⟩, ?_, ?_, ?_⟩
  · simp only [Demo3v4.create_encrypted_profile, hdump]
  · unfold Demo3v4.load_encrypted_profile
    simp only [take_append_marker, drop_append_marker, if_pos]
    simp [fernet_decrypt, fernet_encrypt]
  · intro hnd k v hv
    exact py_getattr_setattrs_of_getattr d _ k v hnd hv

/-- Witness for C1 at concrete inputs. -/
theorem c1_encrypted_profile_round_trip_witness :
    fernet_decrypt (derive_key "pw" [1, 2])
      (fernet_encrypt (derive_key "pw" [1, 2])
        (.dict [("HOME_PAGE", .str "https://x")])) =
      some (.dict [("HOME_PAGE", .str "https://x")]) ∧
    ∃ dir : ProfileDir,
      Demo3v4.create_encrypted_profile "p" "pw" [1, 2]
        (some [("HOME_PAGE", .str "https://x")]) = some dir ∧
      Demo3v4.load_encrypted_profile "pw" dir
        = .ok (py_setattrs Demo3v4.default_config [("HOME_PAGE", .str "https://x")]) ∧
      ((([("HOME_PAGE", PyVal.str "https://x")].map Prod.fst).Nodup →
        ∀ (k : String) (v : PyVal),
          py_getattr [("HOME_PAGE", .str "https://x")] k = some v →
            py_getattr (py_setattrs Demo3v4.default_config
              [("HOME_PAGE", .str "https://x")]) k = some v)) :=
  c1_encrypted_profile_round_trip "p" "pw" [1, 2]
    [("HOME_PAGE", .str "https://x")] rfl

/-! ## C2 — wrong password -/

/-- C2 counterexample: in `Demo2i3.py` a wrong password is not surfaced as an
authentication error distinct from the generic profile error: the
`InvalidToken` raised by `Fernet.decrypt` falls into the single generic
`except Exception` handler, so decrypting the profile created under
password `pw1` with password `pw2` yields the generic profile-error outcome,
not a distinct authentication error. -/
theorem c2_wrong_password_generic_error_counterexample :
    (∃ dir : ProfileDir,
      Demo2i3.create_encrypted_profile "p" "pw1" (List.replicate 16 0)
        (some [("HOME_PAGE", .str "h")]) = some dir ∧
      Demo2i3.load_encrypted_profile "pw2" dir = .profileError) ∧
    Demo3v4.LoadResult.profileError ≠ Demo3v4.LoadResult.authError := by
  refine ⟨⟨⟨some (ENCRYPTED_MARKER ++ List.replicate 16 0),
            some (fernet_encrypt (derive_key "pw1" (List.replicate 16 0))
              (.dict [("HOME_PAGE", .str "h")]))⟩, rfl, rfl⟩,
    fun hcontra => Demo3v4.LoadResult.noConfusion hcontra⟩

/-- C2 (amended): decrypting a token encrypted under a key derived from
`pw1` with a key derived from any `pw2 ≠ pw1` (same salt) never yields a
parsed `Config`: in `Demo3v4.py` it is caught by the dedicated
`except InvalidToken` branch (the authentication-failure outcome, distinct
from the generic handler); in `Demo2i3.py` the same condition lands in the
generic `except Exception` handler, so the outcome there is the generic
profile error, not a distinct authentication error. -/
theorem c2_wrong_password_never_ok
    (pw1 pw2 : String) (salt : List Nat) (blob : PyVal) (dir : ProfileDir)
    (hne : pw2 ≠ pw1)
    (hmeta : dir.meta = some (ENCRYPTED_MARKER ++ salt))
    (henc : dir.configEnc = some (fernet_encrypt (derive_key pw1 salt) blob)) :
    Demo3v4.load_encrypted_profile pw2 dir = .authError ∧
    Demo2i3.load_encrypted_profile pw2 dir = .profileError ∧
    (∀ c, Demo3v4.load_encrypted_profile pw2 dir ≠ .ok c) ∧
    (∀ c, Demo2i3.load_encrypted_profile pw2 dir ≠ .ok c) := by
  have hdec : fernet_decrypt (derive_key pw2 salt)
      (fernet_encrypt (derive_key pw1 salt) blob) = none := by
    unfold fernet_decrypt fernet_encrypt derive_key
    rw [if_neg]
    intro hcontra
    exact hne (congrArg FernetKey.password hcontra).symm
  have h3 : Demo3v4.load_encrypted_profile pw2 dir = .authError := by
    unfold Demo3v4.load_encrypted_profile
    rw [hmeta, henc]
    simp only [take_append_marker, drop_append_marker, if_pos, hdec]
  have h2 : Demo2i3.load_encrypted_profile pw2 dir = .profileError := by
    unfold Demo2i3.load_encrypted_profile
    rw [hmeta, henc]
    simp only [take_append_marker, drop_append_marker, if_pos, hdec]
  refine ⟨h3, h2, fun c hcontra => ?_, fun c hcontra => ?_⟩
  · rw [h3] at hcontra
    exact Demo3v4.LoadResult.noConfusion hcontra
  · rw [h2] at hcontra
    exact Demo3v4.LoadResult.noConfusion hcontra

/-- Witness for C2 at concrete inputs. -/
theorem c2_wrong_password_never_ok_witness :
    Demo3v4.load_encrypted_profile "wrong"
      ⟨some (ENCRYPTED_MARKER ++ [7]),
       some (fernet_encrypt (derive_key "right" [7]) (.dict []))⟩ = .authError ∧
    Demo2i3.load_encrypted_profile "wrong"
      ⟨some (ENCRYPTED_MARKER ++ [7]),
       some (fernet_encrypt (derive_key "right" [7]) (.dict []))⟩ = .profileError :=
  ⟨(c2_wrong_password_never_ok "right" "wrong" [7] (.dict [])
      ⟨some (ENCRYPTED_MARKER ++ [7]),
       some (fernet_encrypt (derive_key "right" [7]) (.dict []))⟩
      (by decide) rfl rfl).1,
   (c2_wrong_password_never_ok "right" "wrong" [7] (.dict [])
      ⟨some (ENCRYPTED_MARKER ++ [7]),
       some (fernet_encrypt (derive_key "right" [7]) (.dict []))⟩
      (by decide) rfl rfl).2.1⟩

/-! ## C3 — saving a config loaded from an encrypted profile -/

/-- C3: the claim (and the spec) say `save` is a no-op for encrypted
profiles, but no code path ever sets `PROFILE_ENCRYPTED` to `True`: the
stored config dict of a freshly created encrypted profile carries the
dataclass default `False`, and `load_encrypted_profile` only copies the
stored dict. Consequently a `Config` loaded from an encrypted profile (here
one created with an explicitly serializable empty dict, marker present) has
`PROFILE_ENCRYPTED = False`, and `Config.save` on it does *not* no-op: it
writes the settings store and the collection files (the bookmarks file goes
from absent to present). -/
theorem c3_save_after_encrypted_load_writes :
    ∃ (dir : ProfileDir) (c : List (String × PyVal)),
      Demo3v4.create_encrypted_profile "locked" "pw" (List.replicate 16 0)
        (some []) = some dir ∧
      dir.meta = some (ENCRYPTED_MARKER ++ List.replicate 16 0) ∧
      Demo3v4.load_encrypted_profile "pw" dir = .ok c ∧
      py_getattr c "PROFILE_ENCRYPTED" = some (.bool false) ∧
      (Demo3v4.config_save c ⟨ProfileDir.empty, [], none, none, none⟩).bookmarksFile
        = some (.list []) ∧
      Demo3v4.config_save c ⟨ProfileDir.empty, [], none, none, none⟩
        ≠ ⟨ProfileDir.empty, [], none, none, none⟩ := by
  refine ⟨⟨some (ENCRYPTED_MARKER ++ List.replicate 16 0),
           some (fernet_encrypt (derive_key "pw" (List.replicate 16 0)) (.dict []))⟩,
    Demo3v4.default_config, rfl, rfl, rfl, rfl, rfl, fun hcontra => ?_⟩
  have hb := congrArg Demo3v4.ProfileStore.bookmarksFile hcontra
  rw [show (Demo3v4.config_save Demo3v4.default_config
      ⟨ProfileDir.empty, [], none, none, none⟩).bookmarksFile
      = some (.list []) from rfl] at hb
  exact Option.noConfusion hb

/-! ## C6 — bookmark toggling -/

theorem find_bookmark_idx_eq_none (url : String) (bs : List Bookmark)
    (h : ∀ b ∈ bs, b.url ≠ url) : find_bookmark_idx url bs = none := by
  induction bs with
  | nil => rfl
  | cons b t ih =>
    simp only [find_bookmark_idx]
    rw [if_neg (h b (by simp)), ih (fun x hx => h x (by simp [hx]))]
    rfl

theorem find_bookmark_idx_none_forall (url : String) (bs : List Bookmark)
    (h : find_bookmark_idx url bs = none) : ∀ b ∈ bs, b.url ≠ url := by
  induction bs with
  | nil => simp
  | cons b t ih =>
    simp only [find_bookmark_idx] at h
    by_cases hb : b.url = url
    · rw [if_pos hb] at h
      exact Option.noConfusion h
    · rw [if_neg hb] at h
      simp only [Option.map_eq_none'] at h
      intro x hx
      rcases List.mem_cons.mp hx with rfl | hx2
      · exact hb
      · exact ih h x hx2

theorem find_bookmark_idx_append_match (url : String) (bs : List Bookmark)
    (b0 : Bookmark) (hb : b0.url = url) (h : ∀ b ∈ bs, b.url ≠ url) :
    find_bookmark_idx url (bs ++ [b0]) = some bs.length := by
  induction bs with
  | nil => simp [find_bookmark_idx, hb]
  | cons b t ih =>
    rw [List.cons_append]
    simp only [find_bookmark_idx]
    rw [if_neg (h b (by simp)), ih (fun x hx => h x (by simp [hx]))]
    rfl

theorem eraseIdx_append_singleton {α : Type} (xs : List α) (x : α) :
    (xs ++ [x]).eraseIdx xs.length = xs := by
  induction xs with
  | nil => rfl
  | cons a t ih => simp [List.eraseIdx, ih]

theorem find_bookmark_idx_some_decomp (url : String) (bs : List Bookmark) (i : Nat)
    (h : find_bookmark_idx url bs = some i) :
    ∃ pre hit post, bs = pre ++ hit :: post ∧ pre.length = i ∧ hit.url = url ∧
      (∀ b ∈ pre, b.url ≠ url) ∧ bs.eraseIdx i = pre ++ post := by
  induction bs generalizing i with
  | nil => exact Option.noConfusion h
  | cons b t ih =>
    simp only [find_bookmark_idx] at h
    by_cases hb : b.url = url
    · rw [if_pos hb] at h
      obtain rfl : (0 : Nat) = i := Option.some.inj h
      exact ⟨[], b, t, rfl, rfl, hb, by simp, rfl⟩
    · rw [if_neg hb] at h
      cases hf : find_bookmark_idx url t with
      | none => rw [hf] at h; exact Option.noConfusion h
      | some j =>
        rw [hf] at h
        have hij : j + 1 = i := by simpa using h
        obtain ⟨pre, hit, post, ht, hlen, hhit, hpre, herase⟩ := ih j hf
        subst hij
        refine ⟨b :: pre, hit, post, ?_, by simp [hlen], hhit, ?_, ?_⟩
        · rw [ht]
          rfl
        · intro x hx
          rcases List.mem_cons.mp hx with rfl | hx2
          · exact hb
          · exact hpre x hx2
        · show b :: t.eraseIdx j = (b :: pre) ++ post
          rw [herase]
          rfl

/-- C6 counterexample: in `Demo2i3.py` toggling is keyed by the exact
`(title, url)` tuple, not by the url: with `("A", "u")` bookmarked, toggling
title `"B"` for the same url `"u"` does not remove the existing entry — it
appends a second bookmark with the same url, growing the list. -/
theorem c6_toggle_keyed_by_pair_counterexample :
    toggle_bookmark_2i3 "B" "u" [("A", "u")] = [("A", "u"), ("B", "u")] ∧
    ("A", "u") ∈ toggle_bookmark_2i3 "B" "u" [("A", "u")] ∧
    (toggle_bookmark_2i3 "B" "u" [("A", "u")]).length = 2 := by
  decide

/-- C6 (amended): in `Demo3v4.py` toggling is keyed by `url` exactly as
claimed — if no entry with the url exists the new bookmark is appended, and
if one exists (regardless of its title) the first such entry is removed;
toggling the same url twice restores the original length for every list in
which the url occurs at most once (bookmark uniqueness is keyed by url). In
`Demo2i3.py`, however, toggling is keyed by the whole `(title, url)` pair:
the exact pair is removed if present, otherwise appended. -/
theorem c6_toggle_bookmark_behavior :
    (∀ (now title url : String) (bs : List Bookmark), (∀ b ∈ bs, b.url ≠ url) →
      toggle_bookmark now title url bs = bs ++ [⟨title, url, now⟩]) ∧
    (∀ (now title url : String) (bs : List Bookmark) (i : Nat),
      find_bookmark_idx url bs = some i →
      ∃ pre hit post, bs = pre ++ hit :: post ∧ hit.url = url ∧ pre.length = i ∧
        toggle_bookmark now title url bs = pre ++ post) ∧
    (∀ (n1 t1 n2 t2 url : String) (bs : List Bookmark),
      List.countP (fun b => decide (b.url = url)) bs ≤ 1 →
      (toggle_bookmark n2 t2 url (toggle_bookmark n1 t1 url bs)).length
        = bs.length) ∧
    (∀ (title url : String) (bs : List (String × String)),
      ((title, url) ∈ bs → toggle_bookmark_2i3 title url bs = bs.erase (title, url)) ∧
      ((title, url) ∉ bs → toggle_bookmark_2i3 title url bs = bs ++ [(title, url)])) := by
  have happend : ∀ (now title url : String) (bs : List Bookmark),
      (∀ b ∈ bs, b.url ≠ url) →
      toggle_bookmark now title url bs = bs ++ [⟨title, url, now⟩] := by
    intro now title url bs h
    unfold toggle_bookmark
    rw [find_bookmark_idx_eq_none url bs h]
  have hremove : ∀ (now title url : String) (bs : List Bookmark) (i : Nat),
      find_bookmark_idx url bs = some i →
      ∃ pre hit post, bs = pre ++ hit :: post ∧ hit.url = url ∧ pre.length = i ∧
        toggle_bookmark now title url bs = pre ++ post := by
    intro now title url bs i h
    obtain ⟨pre, hit, post, hbs, hlen, hhit, _, herase⟩ :=
      find_bookmark_idx_some_decomp url bs i h
    refine ⟨pre, hit, post, hbs, hhit, hlen, ?_⟩
    unfold toggle_bookmark
    rw [h]
    exact herase
  refine ⟨happend, hremove, ?_, ?_⟩
  · intro n1 t1 n2 t2 url bs hcount
    cases hf : find_bookmark_idx url bs with
    | none =>
      have hall := find_bookmark_idx_none_forall url bs hf
      rw [happend n1 t1 url bs hall]
      unfold toggle_bookmark
      rw [find_bookmark_idx_append_match url bs ⟨t1, url, n1⟩ rfl hall]
      show ((bs ++ [(⟨t1, url, n1⟩ : Bookmark)]).eraseIdx bs.length).length = bs.length
      rw [eraseIdx_append_singleton]
    | some i =>
      obtain ⟨pre, hit, post, hbs, hhit, hlen, htog⟩ := hremove n1 t1 url bs i hf
      rw [htog]
      have hc : List.countP (fun b => decide (b.url = url)) post = 0 := by
        rw [hbs] at hcount
        rw [List.countP_append, List.countP_cons] at hcount
        simp [hhit] at hcount
        omega
      have hpostall : ∀ b ∈ post, b.url ≠ url := by
        intro b hbmem
        have := List.countP_eq_zero.mp hc b hbmem
        simpa using this
      have hpreall : ∀ b ∈ pre, b.url ≠ url := by
        have hcpre : List.countP (fun b => decide (b.url = url)) pre = 0 := by
          rw [hbs, List.countP_append, List.countP_cons] at hcount
          simp [hhit] at hcount
          omega
        intro b hbmem
        have := List.countP_eq_zero.mp hcpre b hbmem
        simpa using this
      have hallpp : ∀ b ∈ pre ++ post, b.url ≠ url := by
        intro b hbmem
        rcases List.mem_append.mp hbmem with hb1 | hb2
        · exact hpreall b hb1
        · exact hpostall b hb2
      rw [happend n2 t2 url (pre ++ post) hallpp, hbs]
      simp
  · intro title url bs
    constructor
    · intro hmem
      simp [toggle_bookmark_2i3, hmem]
    · intro hmem
      simp [toggle_bookmark_2i3, hmem]

/-- Witness for C6 at concrete inputs. -/
theorem c6_toggle_bookmark_behavior_witness :
    toggle_bookmark "now1" "T" "u" [] = [⟨"T", "u", "now1"⟩] ∧
    (toggle_bookmark "n2" "T2" "u" (toggle_bookmark "n1" "T" "u" [⟨"X", "v", "d"⟩])).length
      = 1 :=
  ⟨(c6_toggle_bookmark_behavior).1 "now1" "T" "u" [] (by simp),
   (c6_toggle_bookmark_behavior).2.2.1 "n1" "T" "n2" "T2" "u" [⟨"X", "v", "d"⟩]
     (by decide)⟩


/-! ## C5 — history cap and dedup -/

theorem update_first_entry_length (now url title : String) (h : List HistEntry) :
    (update_first_entry now url title h).length = h.length := by
  induction h with
  | nil => rfl
  | cons e t ih =>
    simp only [update_first_entry]
    split
    · simp
    · simp [ih]

theorem add_to_history_ne_nil (now url title : String) (h : List HistEntry) :
    add_to_history now url title h ≠ [] := by
  unfold add_to_history
  split
  · next hany =>
    intro hcontra
    rw [List.take_eq_nil_iff] at hcontra
    rcases hcontra with h100 | hupd
    · exact absurd h100 (by omega)
    · have hlen := update_first_entry_length now url title h
      rw [hupd] at hlen
      have hnil : h = [] := List.length_eq_zero.mp hlen.symm
      rw [hnil] at hany
      simp at hany
  · intro hcontra
    rw [List.take_eq_nil_iff] at hcontra
    rcases hcontra with h100 | hcons
    · exact absurd h100 (by omega)
    · exact List.noConfusion hcons

theorem take_cons_take {α : Type} (a : α) (xs : List α) (n : Nat) (h : 1 ≤ n) :
    (a :: xs.take n).take n = (a :: xs).take n := by
  obtain ⟨m, rfl⟩ : ∃ m, n = m + 1 := ⟨n - 1, by omega⟩
  rw [List.take_succ_cons, List.take_succ_cons, List.take_take,
    Nat.min_eq_left (Nat.le_succ m)]

theorem foldl_add_to_history_distinct (visits : List HistEntry)
    (hnd : (visits.map HistEntry.url).Nodup) :
    visits.foldl (fun h v => add_to_history v.time v.url v.title h) []
      = visits.reverse.take 100 := by
  induction visits using List.reverseRecOn with
  | nil => rfl
  | append_singleton l a ih =>
    have hnd2 : (l.map HistEntry.url).Nodup ∧ a.url ∉ l.map HistEntry.url := by
      rw [List.map_append] at hnd
      simp only [List.map_cons, List.map_nil] at hnd
      rw [List.nodup_append] at hnd
      refine ⟨hnd.1, fun hmem => ?_⟩
      exact hnd.2.2 hmem (by simp)
    rw [List.foldl_append, List.foldl_cons, List.foldl_nil, ih hnd2.1]
    have hfresh : ∀ e ∈ l.reverse.take 100, e.url ≠ a.url := by
      intro e hmem
      have hel : e ∈ l := List.mem_reverse.mp (List.take_subset _ _ hmem)
      intro hcontra
      exact hnd2.2 (hcontra ▸ List.mem_map_of_mem HistEntry.url hel)
    have hany : ¬ ((l.reverse.take 100).any
        (fun e => decide (e.url = a.url)) = true) := by
      rw [List.any_eq_true]
      rintro ⟨e, hmem, he⟩
      exact hfresh e hmem (by simpa using he)
    unfold add_to_history
    rw [if_neg hany]
    show (a :: l.reverse.take 100).take 100 = ((l ++ [a]).reverse).take 100
    rw [List.reverse_append, take_cons_take _ _ _ (by omega)]
    simp

/-- C5: recording a visit updates an existing entry for the url in place
(first match; list length preserved before the cap, never grown), inserts a
new entry at the front otherwise, and caps the list at 100; the capped list
is non-empty and is persisted as computed by `save_history`; folding 101
distinct-url visits over an empty history leaves exactly the 100 most recent
(newest first). -/
theorem c5_history_cap_and_dedup :
    (∀ (now url title : String) (h : List HistEntry),
      (h.any fun e => e.url = url) →
      add_to_history now url title h = (update_first_entry now url title h).take 100 ∧
      (update_first_entry now url title h).length = h.length ∧
      (add_to_history now url title h).length ≤ h.length) ∧
    (∀ (now url title : String) (h : List HistEntry),
      ¬ ((h.any fun e => e.url = url) = true) →
      add_to_history now url title h
        = ((⟨now, url, title⟩ : HistEntry) :: h).take 100) ∧
    (∀ (now url title : String) (h : List HistEntry),
      (add_to_history now url title h).length ≤ 100) ∧
    (∀ (now url title : String) (file : Option (List HistEntry)),
      record_visit now url title file
        = some (add_to_history now url title (load_history file))) ∧
    (∀ visits : List HistEntry, (visits.map HistEntry.url).Nodup →
      visits.foldl (fun h v => add_to_history v.time v.url v.title h) []
        = visits.reverse.take 100) ∧
    (∀ visits : List HistEntry, (visits.map HistEntry.url).Nodup →
      visits.length = 101 →
      (visits.foldl (fun h v => add_to_history v.time v.url v.title h) []).length
          = 100 ∧
      visits.foldl (fun h v => add_to_history v.time v.url v.title h) []
        = visits.reverse.take 100) := by
  have hcap : ∀ (now url title : String) (h : List HistEntry),
      (add_to_history now url title h).length ≤ 100 := by
    intro now url title h
    unfold add_to_history
    split
    · exact List.length_take_le _ _
    · exact List.length_take_le _ _
  refine ⟨?_, ?_, hcap, ?_, foldl_add_to_history_distinct, ?_⟩
  · intro now url title h hany
    have heq : add_to_history now url title h
        = (update_first_entry now url title h).take 100 := by
      unfold add_to_history
      rw [if_pos hany]
    refine ⟨heq, update_first_entry_length now url title h, ?_⟩
    rw [heq, List.length_take, update_first_entry_length now url title h]
    exact Nat.min_le_right 100 h.length
  · intro now url title h hany
    unfold add_to_history
    rw [if_neg hany]
  · intro now url title file
    unfold record_visit save_history
    cases hadd : add_to_history now url title (load_history file) with
    | nil => exact absurd hadd (add_to_history_ne_nil now url title _)
    | cons e t => simp
  · intro visits hnd hlen
    refine ⟨?_, foldl_add_to_history_distinct visits hnd⟩
    rw [foldl_add_to_history_distinct visits hnd, List.length_take,
      List.length_reverse, hlen]
    decide

/-- Witness for C5 at concrete inputs. -/
theorem c5_history_cap_and_dedup_witness :
    add_to_history "t" "u" "x" [] = ((⟨"t", "u", "x"⟩ : HistEntry) :: []).take 100 ∧
    record_visit "t" "u" "x" none
      = some (add_to_history "t" "u" "x" (load_history none)) ∧
    ([⟨"1", "a", "A"⟩, ⟨"2", "b", "B"⟩] : List HistEntry).foldl
        (fun h v => add_to_history v.time v.url v.title h) []
      = ([⟨"1", "a", "A"⟩, ⟨"2", "b", "B"⟩] : List HistEntry).reverse.take 100 :=
  ⟨(c5_history_cap_and_dedup).2.1 "t" "u" "x" [] (by decide),
   (c5_history_cap_and_dedup).2.2.2.1 "t" "u" "x" none,
   (c5_history_cap_and_dedup).2.2.2.2.1 [⟨"1", "a", "A"⟩, ⟨"2", "b", "B"⟩]
     (by decide)⟩

/-! ## C8 — deletion by indices -/

theorem keep_not_in_nil_set {α : Type} (pos : Nat) (xs : List α) :
    keep_not_in [] pos xs = xs := by
  induction xs generalizing pos with
  | nil => rfl
  | cons x t ih => simp [keep_not_in, ih]

theorem keep_not_in_all_lt {α : Type} (S : List Int) (pos : Nat) (xs : List α)
    (h : ∀ j ∈ S, j < pos) : keep_not_in S pos xs = xs := by
  induction xs generalizing pos with
  | nil => rfl
  | cons x t ih =>
    show (if ((pos : Nat) : Int) ∈ S then keep_not_in S (pos + 1) t
          else x :: keep_not_in S (pos + 1) t) = x :: t
    rw [if_neg (fun hmem => absurd (h _ hmem) (by omega)),
      ih (pos + 1) (fun j hj => by have := h j hj; push_cast; omega)]

theorem keep_not_in_cons_out {α : Type} (S : List Int) (i : Int) (pos : Nat)
    (xs : List α) (h : (pos : Int) + xs.length ≤ i) :
    keep_not_in (i :: S) pos xs = keep_not_in S pos xs := by
  induction xs generalizing pos with
  | nil => rfl
  | cons x t ih =>
    have hlen : ((pos : Int) + 1) + t.length ≤ i := by
      simp only [List.length_cons] at h
      push_cast at h ⊢
      omega
    have hpos_ne : ¬ (((pos : Nat) : Int) = i) := by
      have hnn : (0 : Int) ≤ t.length := Int.ofNat_nonneg _
      simp only [List.length_cons] at h
      push_cast at h
      omega
    show (if ((pos : Nat) : Int) ∈ i :: S then keep_not_in (i :: S) (pos + 1) t
          else x :: keep_not_in (i :: S) (pos + 1) t)
        = (if ((pos : Nat) : Int) ∈ S then keep_not_in S (pos + 1) t
          else x :: keep_not_in S (pos + 1) t)
    have hih := ih (pos + 1) (by push_cast; omega)
    by_cases hm : ((pos : Nat) : Int) ∈ S
    · rw [if_pos (List.mem_cons_of_mem _ hm), if_pos hm, hih]
    · rw [if_neg (fun hc => by
          rcases List.mem_cons.mp hc with hc1 | hc2
          · exact hpos_ne hc1
          · exact hm hc2),
        if_neg hm, hih]

theorem keep_not_in_cons_erase {α : Type} (S : List Int) (i : Int) (pos : Nat)
    (xs : List α) (hS : ∀ j ∈ S, j < i) (hpos : (pos : Int) ≤ i)
    (hlt : i < (pos : Int) + xs.length) :
    keep_not_in (i :: S) pos xs = keep_not_in S pos (xs.eraseIdx (i - pos).toNat) := by
  induction xs generalizing pos with
  | nil => rfl
  | cons x t ih =>
    by_cases heq : ((pos : Nat) : Int) = i
    · rw [show (i - (pos : Int)).toNat = 0 from by omega]
      show (if ((pos : Nat) : Int) ∈ i :: S then keep_not_in (i :: S) (pos + 1) t
            else x :: keep_not_in (i :: S) (pos + 1) t) = keep_not_in S pos t
      rw [if_pos (heq ▸ List.mem_cons_self _ _),
        keep_not_in_all_lt (i :: S) (pos + 1) t (fun j hj => by
          rcases List.mem_cons.mp hj with rfl | hjS
          · push_cast
            omega
          · have := hS j hjS
            push_cast
            omega),
        keep_not_in_all_lt S pos t (fun j hj => by
          have := hS j hj
          omega)]
    · have hlt2 : ((pos : Nat) : Int) < i := lt_of_le_of_ne hpos heq
      rw [show (i - (pos : Int)).toNat = (i - ((pos + 1 : Nat) : Int)).toNat + 1 from by
        push_cast
        omega]
      show (if ((pos : Nat) : Int) ∈ i :: S then keep_not_in (i :: S) (pos + 1) t
            else x :: keep_not_in (i :: S) (pos + 1) t)
          = (if ((pos : Nat) : Int) ∈ S then
              keep_not_in S (pos + 1) (t.eraseIdx (i - ((pos + 1 : Nat) : Int)).toNat)
            else x :: keep_not_in S (pos + 1) (t.eraseIdx (i - ((pos + 1 : Nat) : Int)).toNat))
    
      have hih := ih (pos + 1) (by push_cast; omega) (by
        simp only [List.length_cons] at hlt
        push_cast at hlt ⊢
        omega)
      by_cases hm : ((pos : Nat) : Int) ∈ S
      · rw [if_pos (List.mem_cons_of_mem _ hm), if_pos hm, hih]
      · rw [if_neg (fun hc => by
            rcases List.mem_cons.mp hc with hc1 | hc2
            · exact heq hc1
            · exact hm hc2),
          if_neg hm, hih]

theorem foldl_pop_sorted {α : Type} (S : List Int)
    (hs : List.Pairwise (fun a b => b < a) S) (xs : List α) :
    S.foldl pop_index xs = keep_not_in S 0 xs := by
  induction S generalizing xs with
  | nil => rw [List.foldl_nil, keep_not_in_nil_set]
  | cons i rest ih =>
    have hrest : ∀ j ∈ rest, j < i := (List.pairwise_cons.mp hs).1
    have hs2 := (List.pairwise_cons.mp hs).2
    rw [List.foldl_cons, ih hs2]
    unfold pop_index
    by_cases hneg : 0 ≤ i
    · by_cases hlen : i < (xs.length : Int)
      · rw [if_pos ⟨hneg, hlen⟩]
        have hkey := keep_not_in_cons_erase rest i 0 xs hrest
          (by exact_mod_cast hneg) (by push_cast; omega)
        rw [show (i - ((0 : Nat) : Int)).toNat = i.toNat from by omega] at hkey
        exact hkey.symm
      · rw [if_neg (fun hc => hlen hc.2)]
        exact (keep_not_in_cons_out rest i 0 xs (by push_cast; omega)).symm
    · rw [if_neg (fun hc => hneg hc.1)]
      rw [keep_not_in_all_lt rest 0 xs (fun j hj => by have := hrest j hj; omega),
        keep_not_in_all_lt (i :: rest) 0 xs (fun j hj => by
          rcases List.mem_cons.mp hj with rfl | hj2
          · omega
          · have := hrest j hj2
            omega)]

theorem insert_desc_perm (a : Int) (l : List Int) :
    List.Perm (insert_desc a l) (a :: l) := by
  induction l with
  | nil => exact List.Perm.refl _
  | cons b t ih =>
    simp only [insert_desc]
    split
    · exact List.Perm.refl _
    · exact (ih.cons b).trans (List.Perm.swap a b t)

theorem sort_desc_perm (l : List Int) : List.Perm (sort_desc l) l := by
  induction l with
  | nil => exact List.Perm.refl _
  | cons a t ih => exact (insert_desc_perm a (sort_desc t)).trans (ih.cons a)

theorem insert_desc_pairwise (a : Int) (l : List Int)
    (h : List.Pairwise (fun x y => y ≤ x) l) :
    List.Pairwise (fun x y => y ≤ x) (insert_desc a l) := by
  induction l with
  | nil => simp [insert_desc]
  | cons b t ih =>
    rcases List.pairwise_cons.mp h with ⟨hb, ht⟩
    simp only [insert_desc]
    split
    · next hba =>
      refine List.pairwise_cons.mpr ⟨?_, h⟩
      intro y hy
      rcases List.mem_cons.mp hy with rfl | hyt
      · exact hba
      · exact le_trans (hb y hyt) hba
    · next hba =>
      refine List.pairwise_cons.mpr ⟨?_, ih ht⟩
      intro y hy
      rcases List.mem_cons.mp ((insert_desc_perm a t).mem_iff.mp hy) with rfl | hyt
      · omega
      · exact hb y hyt

theorem sort_desc_pairwise (l : List Int) :
    List.Pairwise (fun x y => y ≤ x) (sort_desc l) := by
  induction l with
  | nil => exact List.Pairwise.nil
  | cons a t ih => exact insert_desc_pairwise a (sort_desc t) ih

theorem sort_desc_strict (l : List Int) (h : l.Nodup) :
    List.Pairwise (fun x y => y < x) (sort_desc l) := by
  have hnd : (sort_desc l).Nodup := (sort_desc_perm l).nodup_iff.mpr h
  exact ((sort_desc_pairwise l).and hnd).imp
    (fun hab => lt_of_le_of_ne hab.1 (Ne.symm hab.2))

theorem keep_not_in_congr {α : Type} (S T : List Int) (pos : Nat) (xs : List α)
    (h : ∀ j : Int, j ∈ S ↔ j ∈ T) :
    keep_not_in S pos xs = keep_not_in T pos xs := by
  induction xs generalizing pos with
  | nil => rfl
  | cons x t ih =>
    show (if ((pos : Nat) : Int) ∈ S then keep_not_in S (pos + 1) t
          else x :: keep_not_in S (pos + 1) t)
        = (if ((pos : Nat) : Int) ∈ T then keep_not_in T (pos + 1) t
          else x :: keep_not_in T (pos + 1) t)
    by_cases hm : ((pos : Nat) : Int) ∈ S
    · rw [if_pos hm, if_pos ((h _).mp hm), ih]
    · rw [if_neg hm, if_neg (fun hc => hm ((h _).mpr hc)), ih]

/-- C8: the deletion loops of `delete_bookmarks` / `delete_history_items`
process `sorted(indices, reverse=True)` — largest index first — so earlier
deletions never shift the positions still to be deleted: for every list and
every set of indices (no duplicates), the result keeps exactly the elements
whose original position is not among the requested indices; in particular
deleting indices `[0, 2]` from a 3-element list leaves exactly the element
originally at index 1. -/
theorem c8_delete_by_indices_desc :
    (∀ (α : Type) (items : List α) (indices : List Int), indices.Nodup →
      delete_by_indices indices items = keep_not_in indices 0 items) ∧
    (∀ (α : Type) (a b c : α), delete_by_indices [0, 2] [a, b, c] = [b]) := by
  constructor
  · intro α items indices hnd
    unfold delete_by_indices
    rw [foldl_pop_sorted (sort_desc indices) (sort_desc_strict indices hnd) items]
    exact keep_not_in_congr _ _ _ _ (fun j => (sort_desc_perm indices).mem_iff)
  · intro α a b c
    rfl

/-- Witness for C8 at concrete inputs. -/
theorem c8_delete_by_indices_desc_witness :
    delete_by_indices [0, 2] ([10, 20, 30] : List Nat)
      = keep_not_in [0, 2] 0 ([10, 20, 30] : List Nat) ∧
    delete_by_indices [0, 2] ([10, 20, 30] : List Nat) = [20] :=
  ⟨(c8_delete_by_indices_desc).1 Nat [10, 20, 30] [0, 2] (by decide),
   (c8_delete_by_indices_desc).2 Nat 10 20 30⟩
